import Mathlib

/-!
Verification of the propertyestimator core: the calculation-layer result
aggregation routine (src/propertyestimator/layers/layers.py) and the
protocol-node contract (src/propertyestimator/workflow/protocols.py),
shallowly embedded in Lean 4.
-/

namespace PropEst

/-! ## Layers data model (layers.py) -/

/-- Modelled from the spec: PropertyEstimatorException
(utils/exceptions.py is not under src/) is a structured exception
carrying a message string. -/
structure PEException where
  message : String
deriving DecidableEq, Repr

/-- An estimated physical property as routed by the aggregator; only its
substance identifier is inspected by layers.py
(returned_output.calculated_property.substance.identifier). -/
structure CalcProperty where
  substance_identifier : String
deriving DecidableEq, Repr

/-- An entry of server_request.queued_properties; layers.py compares it by
its id field against returned_output.property_id and removes it by
list equality. -/
structure QueuedProperty where
  prop_id : String
  substance_id : String
deriving DecidableEq, Repr

/-- CalculationLayerResult from layers.py: property_id, optional
calculated_property, optional exception, and data_directories_to_store
(which the code guards against being None, hence an Option of a list). -/
structure CalculationLayerResult where
  property_id : String
  calculated_property : Option CalcProperty
  exception : Option PEException
  data_directories_to_store : Option (List String)
deriving DecidableEq, Repr

/-- One element of the realized results list handed to _process_results:
Python None, a CalculationLayerResult, or any other object (which fails
the isinstance check). -/
inductive ReturnedOutput where
  | nothing
  | result (r : CalculationLayerResult)
  | invalid
deriving DecidableEq, Repr

/-- ServerEstimationRequest as mutated by _process_results: the queue of
pending properties, the two substance-keyed routing maps, and the
exception list. Maps are association lists keyed by substance id. -/
structure ServerEstimationRequest where
  id : String
  force_field_id : String
  queued_properties : List QueuedProperty
  estimated_properties : List (String × List CalcProperty)
  unsuccessful_properties : List (String × List CalcProperty)
  exceptions : List PEException
deriving DecidableEq, Repr

/-- Python dict append idiom from layers.py lines 218-221 and 225-228:
if the key is absent bind it to the empty list, then append. -/
def mapAppend (m : List (String × List CalcProperty)) (k : String) (v : CalcProperty) :
    List (String × List CalcProperty) :=
  match m.lookup k with
  | none => m ++ [(k, [v])]
  | some l => m.map (fun e => if e.1 = k then (k, l ++ [v]) else e)

/-- State of one data directory on disk, as probed by layers.py lines
164-183: whether the directory exists, whether its data.json manifest
exists, and whether reading or re-writing the manifest raises. The
manifest backfill and storage_backend.store_simulation_data call do not
touch the server request, so only their possible exception is modelled. -/
structure DirEntry where
  isdir : Bool
  isfile : Bool
  readError : Option String
deriving DecidableEq, Repr

/-- A filesystem snapshot: directory path to its state; an absent path is
not a directory. -/
abbrev Fs := List (String × DirEntry)

/-- The storage loop of layers.py lines 162-183: a directory whose path or
manifest is missing is logged and skipped; otherwise the manifest is
read, backfilled and written and the directory stored, any of which may
raise (modelled by readError). Returns the first raised error, if any. -/
def storeDataDirectories (fs : Fs) : List String → Option String
  | [] => none
  | d :: rest =>
    match fs.lookup d with
    | none => storeDataDirectories fs rest
    | some e =>
      if !e.isdir || !e.isfile then storeDataDirectories fs rest
      else
        match e.readError with
        | some err => some err
        | none => storeDataDirectories fs rest

/-- The guard of layers.py lines 151-183: the storage step only runs when
the result carries no exception, its data_directories_to_store is not
None and its calculated_property is not None. -/
def storageError (fs : Fs) (r : CalculationLayerResult) : Option String :=
  match r.exception with
  | some _ => none
  | none =>
    match r.data_directories_to_store, r.calculated_property with
    | some dirs, some _ => storeDataDirectories fs dirs
    | _, _ => none

/-- The body of one iteration of the results loop of _process_results
(layers.py lines 138-228). Returns the request as mutated so far together
with the raised exception, if any: a raise escapes the loop carrying the
mutations already applied (there is no rollback). -/
def processOne (fs : Fs) (req : ServerEstimationRequest) :
    ReturnedOutput → ServerEstimationRequest × Option String
  | .nothing => (req, none)
  | .invalid =>
    (req, some "The output of the calculation was not a CalculationLayerResult as expected.")
  | .result r =>
    let req1 := match r.exception with
      | some e => { req with exceptions := req.exceptions ++ [e] }
      | none => req
    match storageError fs r with
    | some e => (req1, some e)
    | none =>
      let matchedProps := req1.queued_properties.filter (fun x => x.prop_id == r.property_id)
      let req2 := { req1 with
        queued_properties := matchedProps.foldl (fun acc m => acc.erase m) req1.queued_properties }
      if matchedProps.length > 1 then
        (req2, some ("A property id (" ++ r.property_id ++ ") conflict occurred."))
      else if matchedProps.length = 0 then (req2, none)
      else
        match r.calculated_property, r.exception with
        | none, _ => (req2, none)
        | some cp, none =>
          ({ req2 with estimated_properties :=
              mapAppend req2.estimated_properties cp.substance_identifier cp }, none)
        | some cp, some _ =>
          ({ req2 with unsuccessful_properties :=
              mapAppend req2.unsuccessful_properties cp.substance_identifier cp }, none)

/-- The results loop of _process_results: iterate in order; the first
raised exception aborts the loop, keeping the mutations made so far. -/
def processLoop (fs : Fs) : ServerEstimationRequest → List ReturnedOutput →
    ServerEstimationRequest × Option String
  | req, [] => (req, none)
  | req, out :: rest =>
    match processOne fs req out with
    | (req', none) => processLoop fs req' rest
    | (req', some e) => (req', some e)

/-- The whole try-block body of _process_results: results_future.result()
itself may raise (modelled by an Except input), otherwise the loop runs. -/
def runBody (fs : Fs) (future : Except String (List ReturnedOutput))
    (req : ServerEstimationRequest) : ServerEstimationRequest × Option String :=
  match future with
  | .error e => (req, some e)
  | .ok results => processLoop fs req results

/-- The except-clause of _process_results lines 230-239: the caught
exception is wrapped into a PropertyEstimatorException whose message
carries the formatted causal trace. -/
def wrapException (e : String) : PEException :=
  { message := "An unhandled internal exception occurred: " ++ e }

/-- Observable outcome of one call to _process_results: the final request
and the list of arguments the completion callback was invoked with. -/
structure ProcessOutcome where
  request : ServerEstimationRequest
  callback_args : List ServerEstimationRequest
deriving DecidableEq, Repr

/-- PropertyCalculationLayer._process_results (layers.py lines 113-241):
run the body under the top-level guard, on a raise append the wrapped
exception to the request, then invoke the callback with the request. -/
def process_results (fs : Fs) (future : Except String (List ReturnedOutput))
    (req : ServerEstimationRequest) : ProcessOutcome :=
  let step := runBody fs future req
  let final := match step.2 with
    | none => step.1
    | some e => { step.1 with exceptions := step.1.exceptions ++ [wrapException e] }
  { request := final, callback_args := [final] }

/-- register_calculation_layer (layers.py lines 15-28): registering an
already-present tag raises before mutating; otherwise the constructor is
stored under the tag. The registry is an association list from the class
name to its constructor. -/
def register_calculation_layer {α : Type} (registry : List (String × α))
    (tag : String) (cls : α) : Except String Unit × List (String × α) :=
  if (registry.lookup tag).isSome then
    (.error ("The " ++ tag ++ " layer is already registered."), registry)
  else
    (.ok (), (tag, cls) :: registry)

/-! ## Protocol node model (workflow/protocols.py) -/

/-- Modelled from the spec: a node id is a chain of instance components.
The source stores ids as strings and the missing utils/graph.py
append_uuid prepends the job uuid as a new component; substring
containment of a tag (str.find in set_uuid) becomes component
membership. -/
abbrev NodeId := List String

/-- Modelled from the spec: graph.append_uuid (utils/graph.py is not
under src/) appends the job identifier component to a node id. -/
def append_uuid (id : NodeId) (tag : String) : NodeId := tag :: id

/-- Modelled from the spec: ProtocolPath (workflow/utils.py is not under
src/) is an address made of a protocol-id chain plus a property name;
an empty chain is a local, unresolved address. -/
structure ProtocolPath where
  protocol_ids : List NodeId
  property_name : String
deriving DecidableEq, Repr

/-- The first protocol id of the chain, None for a local path. -/
def ProtocolPath.start_protocol (p : ProtocolPath) : Option NodeId :=
  p.protocol_ids.head?

/-- The last protocol id of the chain, None for a local path. -/
def ProtocolPath.last_protocol (p : ProtocolPath) : Option NodeId :=
  p.protocol_ids.getLast?

/-- Modelled from the spec: ProtocolPath.append_uuid rewrites every
node-id component of the address to carry the instance tag; a local
address is left unchanged. -/
def ProtocolPath.append_uuid_path (p : ProtocolPath) (tag : String) : ProtocolPath :=
  { p with protocol_ids := p.protocol_ids.map (fun i => append_uuid i tag) }

/-- Modelled from the spec: the per-input merge policy variants of the
missing workflow/decorators.py (the Unmanaged case of the spec is an
input descriptor without a merge_behavior attribute, modelled as an
Option none elsewhere). -/
inductive MergeBehaviour where
  | ExactlyEqual
  | SmallestValue
  | GreatestValue
deriving DecidableEq, Repr

/-- Values stored in protocol attributes, covering the shapes the claims
exercise: booleans (allow_merging), integers and strings (merge
min/max and equality checks), addresses (inputs wired to other
protocols) and Python None. -/
inductive Value where
  | vbool (b : Bool)
  | vint (n : Int)
  | vstr (s : String)
  | vpath (p : ProtocolPath)
  | vnone
deriving DecidableEq, Repr

/-- Python truthiness, as used by the can_merge guard on allow_merging. -/
def Value.truthy : Value → Bool
  | .vbool b => b
  | .vint n => n != 0
  | .vstr s => s ≠ ""
  | .vpath _ => true
  | .vnone => false

/-- Static description of a protocol class: its name, its method
resolution order (its own name first, then ancestor class names, so the
isinstance check of can_merge is membership), the input descriptors
declared on it and its bases via protocol_input (with their
merge_behavior attribute, none when the descriptor carries no such
attribute), and the output descriptors declared via protocol_output. -/
structure ProtocolType where
  name : String
  mro : List String
  inputs : List (String × Option MergeBehaviour)
  outputs : List String
deriving DecidableEq, Repr

/-- Python getattr on the class followed by a hasattr probe for
merge_behavior (protocols.py lines 311-314 and 361-364): an unknown
attribute raises AttributeError; an output descriptor or an unmanaged
input has no merge_behavior (ok none); a managed input yields its tag. -/
def classMergeBehavior (t : ProtocolType) (name : String) :
    Except String (Option MergeBehaviour) :=
  match t.inputs.lookup name with
  | some mb => .ok mb
  | none =>
    if name ∈ t.outputs then .ok none
    else .error ("type object " ++ t.name ++ " has no attribute " ++ name)

/-- A protocol instance: its class description, its unique id, the map of
its instance attributes (declared inputs and outputs plus auxiliary
attributes such as directory), and the input and output address lists
built by BaseProtocol.__init__. -/
structure Protocol where
  ptype : ProtocolType
  id : NodeId
  values : List (String × Value)
  required_inputs : List ProtocolPath
  provided_outputs : List ProtocolPath
deriving DecidableEq, Repr

/-- Python getattr on the instance: raises AttributeError when the name
is not an attribute. -/
def getAttr (p : Protocol) (name : String) : Except String Value :=
  match p.values.lookup name with
  | some v => .ok v
  | none => .error (p.ptype.name ++ " object has no attribute " ++ name)

/-- Python setattr on an existing attribute, keyed by name. -/
def setVal (vals : List (String × Value)) (name : String) (v : Value) :
    List (String × Value) :=
  vals.map (fun e => if e.1 = name then (name, v) else e)

/-- BaseProtocol.__init__ (protocols.py lines 100-122): required_inputs
and provided_outputs are the local addresses of the class-declared
inputs and outputs, allow_merging starts True, every declared attribute
exists on the instance and the auxiliary directory attribute is set. -/
def mkProtocol (t : ProtocolType) (id : NodeId) : Protocol :=
  { ptype := t
    id := id
    values :=
      ("directory", Value.vnone) ::
        (t.inputs.map (fun e =>
          (e.1, if e.1 = "allow_merging" then Value.vbool true else Value.vnone)) ++
         t.outputs.map (fun n => (n, Value.vnone)))
    required_inputs := t.inputs.map (fun e => { protocol_ids := [], property_name := e.1 })
    provided_outputs := t.outputs.map (fun n => { protocol_ids := [], property_name := n }) }

/-- The id guard shared by get_value and set_value (protocols.py lines
413-416 and 436-439): a path whose start protocol is set and differs
from this protocol's id does not target this protocol. -/
def targetsOther (p : Protocol) (addr : ProtocolPath) : Bool :=
  match addr.start_protocol with
  | none => false
  | some s => s ≠ p.id

/-- BaseProtocol.get_value (protocols.py lines 399-423). -/
def get_value (p : Protocol) (addr : ProtocolPath) : Except String Value :=
  if targetsOther p addr then
    .error "The reference path does not target this protocol."
  else
    match p.values.lookup addr.property_name with
    | none =>
      .error ("This protocol does not have contain a " ++ addr.property_name ++ " property.")
    | some v => .ok v

/-- BaseProtocol.set_value (protocols.py lines 425-449): same id and
attribute guards as get_value, then the read-only output check, then
the attribute update. -/
def set_value (p : Protocol) (addr : ProtocolPath) (v : Value) : Except String Protocol :=
  if targetsOther p addr then
    .error "The reference path does not target this protocol."
  else if (p.values.lookup addr.property_name).isNone then
    .error ("This protocol does not have contain a " ++ addr.property_name ++ " property.")
  else if addr ∈ p.provided_outputs then
    .error "Output values cannot be set by this method."
  else
    .ok { p with values := setVal p.values addr.property_name v }

/-- The locality filter applied to an input path by can_merge (second
continue, lines 302-306) and merge (lines 352-356): proceed only for a
local path or a path whose chain starts and ends at this protocol. -/
def isLocalOrSelf (pid : NodeId) (q : ProtocolPath) : Bool :=
  q.start_protocol = none ∨
    (q.start_protocol = q.last_protocol ∧ q.start_protocol = some pid)

/-- The input loop of BaseProtocol.can_merge (protocols.py lines
295-328): skip non-local paths, skip descriptors without a
merge_behavior, skip non-ExactlyEqual tags, then demand that the other
protocol declares the same address with an equal value. -/
def canMergeLoop (a b : Protocol) : List ProtocolPath → Except String Bool
  | [] => .ok true
  | ip :: rest =>
    if ip.start_protocol ≠ none ∧ ip.start_protocol ≠ some a.id then
      canMergeLoop a b rest
    else if ¬ isLocalOrSelf a.id ip then
      canMergeLoop a b rest
    else
      match classMergeBehavior a.ptype ip.property_name with
      | .error e => .error e
      | .ok none => canMergeLoop a b rest
      | .ok (some m) =>
        if m ≠ .ExactlyEqual then canMergeLoop a b rest
        else if ip ∉ b.required_inputs then .ok false
        else
          match get_value a ip, get_value b ip with
          | .error e, _ => .error e
          | _, .error e => .error e
          | .ok sv, .ok ov => if sv ≠ ov then .ok false else canMergeLoop a b rest

/-- BaseProtocol.can_merge (protocols.py lines 276-328): self must allow
merging, self must be an instance of the other protocol's type
(isinstance, so a subclass passes), then the ExactlyEqual input loop. -/
def can_merge (a b : Protocol) : Except String Bool :=
  match getAttr a "allow_merging" with
  | .error e => .error e
  | .ok am =>
    if ¬ am.truthy then .ok false
    else if b.ptype.name ∉ a.ptype.mro then .ok false
    else canMergeLoop a b a.required_inputs

/-- Python min as applied by merge: defined on two ints or two strings,
a TypeError otherwise. -/
def vmin : Value → Value → Except String Value
  | .vint x, .vint y => .ok (.vint (min x y))
  | .vstr x, .vstr y => .ok (.vstr (min x y))
  | _, _ => .error "TypeError: values are not comparable"

/-- Python max as applied by merge. -/
def vmax : Value → Value → Except String Value
  | .vint x, .vint y => .ok (.vint (max x y))
  | .vstr x, .vstr y => .ok (.vstr (max x y))
  | _, _ => .error "TypeError: values are not comparable"

/-- The input loop of BaseProtocol.merge (protocols.py lines 348-376):
skip non-local paths and descriptors without a merge_behavior, skip
ExactlyEqual inputs, and overwrite Smallest and Greatest tagged inputs
with the min and max of the two protocols' values. -/
def mergeLoop (b : Protocol) : Protocol → List ProtocolPath → Except String Protocol
  | a, [] => .ok a
  | a, ip :: rest =>
    if ¬ isLocalOrSelf a.id ip then mergeLoop b a rest
    else
      match classMergeBehavior a.ptype ip.property_name with
      | .error e => .error e
      | .ok none => mergeLoop b a rest
      | .ok (some .ExactlyEqual) => mergeLoop b a rest
      | .ok (some m) =>
        match get_value a ip, get_value b ip with
        | .error e, _ => .error e
        | _, .error e => .error e
        | .ok sv, .ok ov =>
          match (if m = .SmallestValue then vmin sv ov else vmax sv ov) with
          | .error e => .error e
          | .ok v =>
            match set_value a ip v with
            | .error e => .error e
            | .ok a' => mergeLoop b a' rest

/-- BaseProtocol.merge (protocols.py lines 330-378): run the input loop
and return the (always empty) id substitution map. -/
def merge (a b : Protocol) : Except String (Protocol × List (NodeId × NodeId)) :=
  match mergeLoop b a a.required_inputs with
  | .error e => .error e
  | .ok a' => .ok (a', [])

/-- The input loop of BaseProtocol.set_uuid (protocols.py lines 232-238):
each input path is tagged in place, then its value is read back (which
may raise, aborting the loop with the mutations made so far) and tagged
too when it is itself a ProtocolPath. -/
def setUuidInputs (tag : String) (pid : NodeId) :
    List ProtocolPath → List (String × Value) →
    List ProtocolPath × List (String × Value) × Option String
  | [], vals => ([], vals, none)
  | ip :: rest, vals =>
    let ip' := ip.append_uuid_path tag
    if ip'.start_protocol ≠ none ∧ ip'.start_protocol ≠ some pid then
      (ip' :: rest, vals, some "The reference path does not target this protocol.")
    else
      match vals.lookup ip'.property_name with
      | none =>
        (ip' :: rest, vals,
          some ("This protocol does not have contain a " ++ ip'.property_name ++ " property."))
      | some v =>
        let vals' := match v with
          | .vpath pv => setVal vals ip'.property_name (.vpath (pv.append_uuid_path tag))
          | _ => vals
        match setUuidInputs tag pid rest vals' with
        | (restPaths, vals'', err) => (ip' :: restPaths, vals'', err)

/-- BaseProtocol.set_uuid (protocols.py lines 219-241): return untouched
when the id already carries the tag, otherwise tag the id, then every
input path and path-valued input, then every output path; a raise in
the input loop escapes with the mutations made so far. -/
def set_uuid (p : Protocol) (tag : String) : Protocol × Option String :=
  if tag ∈ p.id then (p, none)
  else
    let newId := append_uuid p.id tag
    match setUuidInputs tag newId p.required_inputs p.values with
    | (paths, vals, some e) =>
      ({ p with id := newId, required_inputs := paths, values := vals }, some e)
    | (paths, vals, none) =>
      let outs := p.provided_outputs.map (fun q => q.append_uuid_path tag)
      ({ p with id := newId, required_inputs := paths, values := vals, provided_outputs := outs },
        none)

/-- Well-formedness facts that BaseProtocol.__init__ establishes and the
protocol contract preserves: every required input address is local,
names a class-declared input descriptor and an existing instance
attribute, input names are distinct (Python class attributes), and no
required input address is also a provided output address. -/
def WF (p : Protocol) : Prop :=
  (∀ q ∈ p.required_inputs, q.protocol_ids = []) ∧
  (∀ q ∈ p.required_inputs, (p.ptype.inputs.lookup q.property_name).isSome) ∧
  (∀ q ∈ p.required_inputs, (p.values.lookup q.property_name).isSome) ∧
  (p.required_inputs.map (fun q => q.property_name)).Nodup ∧
  (∀ q ∈ p.required_inputs, q ∉ p.provided_outputs)

instance (p : Protocol) : Decidable (WF p) := by
  unfold WF; infer_instance

/-- Discriminator for failing contract calls. -/
def isError {α : Type} : Except String α → Bool
  | .error _ => true
  | .ok _ => false

/-! ## Helper lemmas -/

/-- The results loop processes a prefix first; a raised exception in the
prefix makes the whole loop return it with the state reached so far. -/
theorem processLoop_append (fs : Fs) (rest : List ReturnedOutput) :
    ∀ (pre : List ReturnedOutput) (req : ServerEstimationRequest),
      processLoop fs req (pre ++ rest) =
        match processLoop fs req pre with
        | (r, none) => processLoop fs r rest
        | (r, some e) => (r, some e) := by
  intro pre
  induction pre with
  | nil => intro req; rfl
  | cons out pre ih =>
    intro req
    show processLoop fs req (out :: (pre ++ rest)) = _
    simp only [processLoop]
    rcases hpo : processOne fs req out with ⟨r, err⟩
    cases err with
    | none => exact ih r
    | some e => rfl

/-- Erasing a list of elements all different from the head leaves the
head in place. -/
theorem foldl_erase_cons_of_ne {α : Type} [DecidableEq α] (x : α) :
    ∀ (ms L : List α), (∀ m ∈ ms, m ≠ x) →
      ms.foldl (fun acc m => acc.erase m) (x :: L) =
        x :: ms.foldl (fun acc m => acc.erase m) L := by
  intro ms
  induction ms with
  | nil => intro L _; rfl
  | cons m ms ih =>
    intro L h
    simp only [List.foldl_cons]
    rw [List.erase_cons_tail]
    · exact ih (L.erase m) (fun m' hm' => h m' (List.mem_cons_of_mem _ hm'))
    · have hne : m ≠ x := h m (List.mem_cons_self m ms)
      simp [hne.symm]

/-- Erasing, one by one, every element of a list that satisfies a
predicate amounts to filtering the list with the negated predicate;
this is the matched-removal loop of _process_results. -/
theorem foldl_erase_filter {α : Type} [DecidableEq α] (p : α → Bool) :
    ∀ l : List α,
      (l.filter p).foldl (fun acc m => acc.erase m) l = l.filter (fun x => !(p x)) := by
  intro l
  induction l with
  | nil => rfl
  | cons x xs ih =>
    by_cases hx : p x
    · rw [List.filter_cons_of_pos hx]
      simp only [List.foldl_cons, List.erase_cons_head]
      rw [ih, List.filter_cons_of_neg]
      simp [hx]
    · rw [List.filter_cons_of_neg (by simpa using hx)]
      have hms : ∀ m ∈ xs.filter p, m ≠ x := by
        intro m hm hmx
        exact hx (by simpa [hmx] using (List.of_mem_filter hm))
      rw [foldl_erase_cons_of_ne x (xs.filter p) xs hms, ih,
        List.filter_cons_of_pos (by simpa using hx)]

/-! ## Sample objects used by witnesses -/

/-- A fresh request holding one queued property. -/
def sampleReq : ServerEstimationRequest :=
  { id := "req-1", force_field_id := "ff-1",
    queued_properties := [⟨"p1", "s1"⟩],
    estimated_properties := [], unsuccessful_properties := [], exceptions := [] }

/-- A request whose queue holds two entries with the same property id. -/
def sampleReqDup : ServerEstimationRequest :=
  { id := "req-2", force_field_id := "ff-1",
    queued_properties := [⟨"p1", "s1"⟩, ⟨"p1", "s2"⟩, ⟨"p3", "s3"⟩],
    estimated_properties := [], unsuccessful_properties := [], exceptions := [] }

/-- A successful result for property p1 with nothing to store. -/
def sampleSuccess : CalculationLayerResult :=
  { property_id := "p1", calculated_property := some ⟨"s1"⟩, exception := none,
    data_directories_to_store := some [] }

/-! ## Claims about result aggregation (layers.py) -/

/-- C1 counterexample: with the results list [invalid, successFor(p1)],
the claim demands that the success result still be processed (removing
p1 from the queue and routing it); the code instead aborts the loop at
the invalid output — the queue keeps p1, nothing is routed, and only the
wrapped internal fault is recorded. -/
theorem c1_counterexample :
    (process_results [] (.ok [.invalid, .result sampleSuccess]) sampleReq).request =
      { sampleReq with exceptions :=
          [wrapException
            "The output of the calculation was not a CalculationLayerResult as expected."] } ∧
    (process_results [] (.ok [.invalid, .result sampleSuccess]) sampleReq).request.queued_properties
      = [⟨"p1", "s1"⟩] := by
  constructor <;> rfl

/-- C1 (amended): a returned output that is not a CalculationLayerResult,
or a result whose propertyId matches more than one queued entry, is
fatal to the remainder of the batch: the raised fault escapes the
results loop to the top-level guard, which records it against the
request as a wrapped exception, and every result after the faulting one
is skipped rather than processed. -/
theorem c1_fault_aborts_batch (fs : Fs) (req req1 req2 : ServerEstimationRequest)
    (pre post : List ReturnedOutput) (bad : ReturnedOutput) (e : String)
    (hpre : processLoop fs req pre = (req1, none))
    (hbad : processOne fs req1 bad = (req2, some e)) :
    (process_results fs (.ok (pre ++ bad :: post)) req).request =
      { req2 with exceptions := req2.exceptions ++ [wrapException e] } := by
  simp only [process_results, runBody]
  rw [processLoop_append fs (bad :: post) pre req, hpre]
  simp only [processLoop, hbad]

/-- C1 amended witness: the invalid output at the head of the batch stops
processing; the trailing results are never touched. -/
theorem c1_fault_aborts_batch_witness :
    (process_results [] (.ok ([] ++ ReturnedOutput.invalid :: [.result sampleSuccess]))
        sampleReq).request =
      { sampleReq with exceptions := sampleReq.exceptions ++
          [wrapException
            "The output of the calculation was not a CalculationLayerResult as expected."] } :=
  c1_fault_aborts_batch [] sampleReq sampleReq sampleReq [] [.result sampleSuccess]
    .invalid _ rfl rfl

/-- C2: one call to _process_results invokes the completion callback
exactly once, with the final server request, on success and on failure
alike; and an exception raised anywhere in the body is caught by the
top-level guard and appended to the request's exceptions as a wrapped
structured exception carrying the trace, instead of propagating. -/
theorem c2_callback_once_and_guard (fs : Fs)
    (future : Except String (List ReturnedOutput)) (req : ServerEstimationRequest) :
    (process_results fs future req).callback_args = [(process_results fs future req).request] ∧
    (∀ e, (runBody fs future req).2 = some e →
      (process_results fs future req).request.exceptions =
        (runBody fs future req).1.exceptions ++ [wrapException e]) := by
  constructor
  · rfl
  · intro e he
    simp only [process_results]
    rcases hrb : runBody fs future req with ⟨r, err⟩
    rw [hrb] at he
    simp only at he
    subst he
    simp

/-- C2 witness: a raise from results_future.result() itself is wrapped
and recorded, and the callback fires once with the final request. -/
theorem c2_callback_once_and_guard_witness :
    (process_results [] (.error "future failed") sampleReq).request.exceptions =
      sampleReq.exceptions ++ [wrapException "future failed"] ∧
    (process_results [] (.error "future failed") sampleReq).callback_args =
      [(process_results [] (.error "future failed") sampleReq).request] :=
  ⟨(c2_callback_once_and_guard [] (.error "future failed") sampleReq).2 "future failed" rfl,
    (c2_callback_once_and_guard [] (.error "future failed") sampleReq).1⟩

/-- C8: registering a calculation layer under an already-registered type
tag raises the duplicate error and leaves the registry unchanged, while
registering a fresh tag succeeds and makes the constructor retrievable
under that tag. -/
theorem c8_register {α : Type} (registry : List (String × α)) (tag : String) (cls : α) :
    ((registry.lookup tag).isSome →
      register_calculation_layer registry tag cls =
        (.error ("The " ++ tag ++ " layer is already registered."), registry)) ∧
    (registry.lookup tag = none →
      (register_calculation_layer registry tag cls).1 = .ok () ∧
      (register_calculation_layer registry tag cls).2.lookup tag = some cls) := by
  constructor
  · intro h
    simp [register_calculation_layer, h]
  · intro h
    simp [register_calculation_layer, h, List.lookup]

/-- C8 witness: a duplicate tag is rejected with the registry intact; a
fresh tag becomes retrievable. -/
theorem c8_register_witness :
    (register_calculation_layer [("SimulationLayer", 0)] "SimulationLayer" (1 : Nat) =
      (.error "The SimulationLayer layer is already registered.", [("SimulationLayer", 0)])) ∧
    ((register_calculation_layer ([] : List (String × Nat)) "SimulationLayer" 7).1 = .ok () ∧
      (register_calculation_layer ([] : List (String × Nat)) "SimulationLayer" 7).2.lookup
        "SimulationLayer" = some 7) :=
  ⟨(c8_register [("SimulationLayer", 0)] "SimulationLayer" 1).1 rfl,
    (c8_register [] "SimulationLayer" 7).2 rfl⟩

/-- C10: on a property-id conflict (more than one queued match), the
aggregation routine has already removed every matching queued entry
before the conflict is raised, and the top-level guard does not roll the
removal back: the final request has lost all matching entries, the
result was not routed into either map, and the wrapped conflict error
sits in the request's exception list. -/
theorem c10_conflict_removes_before_raise (fs : Fs) (req : ServerEstimationRequest)
    (r : CalculationLayerResult)
    (hst : storageError fs r = none)
    (hconf : 1 < (req.queued_properties.filter
      (fun x => x.prop_id == r.property_id)).length) :
    (process_results fs (.ok [.result r]) req).request.queued_properties =
      req.queued_properties.filter (fun x => !(x.prop_id == r.property_id)) ∧
    (process_results fs (.ok [.result r]) req).request.estimated_properties =
      req.estimated_properties ∧
    (process_results fs (.ok [.result r]) req).request.unsuccessful_properties =
      req.unsuccessful_properties ∧
    wrapException ("A property id (" ++ r.property_id ++ ") conflict occurred.") ∈
      (process_results fs (.ok [.result r]) req).request.exceptions := by
  have key : processOne fs req (.result r) =
      ({ req with
          queued_properties := req.queued_properties.filter
            (fun x => !(x.prop_id == r.property_id)),
          exceptions := req.exceptions ++ (match r.exception with
            | some e => [e]
            | none => []) },
        some ("A property id (" ++ r.property_id ++ ") conflict occurred.")) := by
    cases hre : r.exception with
    | none =>
      simp only [processOne, hre, hst]
      rw [if_pos (by simpa using hconf)]
      simp [foldl_erase_filter]
    | some e0 =>
      have hst' : storageError fs r = none := hst
      simp only [processOne, hre]
      rw [show storageError fs r = none from hst']
      rw [if_pos (by simpa using hconf)]
      simp [foldl_erase_filter]
  simp only [process_results, runBody, processLoop, key]
  simp

/-- C10 witness: two queued entries share the property id p1; both are
gone after the conflict, and the conflict is recorded. -/
theorem c10_conflict_removes_before_raise_witness :
    (process_results [] (.ok [.result sampleSuccess]) sampleReqDup).request.queued_properties =
      sampleReqDup.queued_properties.filter
        (fun x => !(x.prop_id == sampleSuccess.property_id)) ∧
    (process_results [] (.ok [.result sampleSuccess]) sampleReqDup).request.estimated_properties =
      sampleReqDup.estimated_properties ∧
    (process_results [] (.ok [.result sampleSuccess]) sampleReqDup).request.unsuccessful_properties
      = sampleReqDup.unsuccessful_properties ∧
    wrapException ("A property id (" ++ sampleSuccess.property_id ++ ") conflict occurred.") ∈
      (process_results [] (.ok [.result sampleSuccess]) sampleReqDup).request.exceptions :=
  c10_conflict_removes_before_raise [] sampleReqDup sampleSuccess rfl (by decide)

/-- C3: with queued properties [P1, P2, P3] and the results list
[successFor(P1), exceptionFor(P2), None] — the exception result carrying
both an exception and a constructed property for P2's substance —
aggregation leaves exactly P3 queued, routes P1's property as the single
entry under P1's substance id, routes P2's constructed property as the
single entry under P2's substance id, records exactly the one carried
exception, and raises nothing for the None entry. -/
theorem c3_mixed_batch (fs : Fs) (req : ServerEstimationRequest)
    (q1 q2 q3 : QueuedProperty) (cp1 cp2 : CalcProperty) (e2 : PEException)
    (hq : req.queued_properties = [q1, q2, q3])
    (hest : req.estimated_properties = [])
    (huns : req.unsuccessful_properties = [])
    (hexc : req.exceptions = [])
    (h21 : q2.prop_id ≠ q1.prop_id) (h31 : q3.prop_id ≠ q1.prop_id)
    (h32 : q3.prop_id ≠ q2.prop_id)
    (hs1 : cp1.substance_identifier = q1.substance_id)
    (hs2 : cp2.substance_identifier = q2.substance_id) :
    (process_results fs (.ok
        [.result { property_id := q1.prop_id, calculated_property := some cp1,
                   exception := none, data_directories_to_store := some [] },
         .result { property_id := q2.prop_id, calculated_property := some cp2,
                   exception := some e2, data_directories_to_store := some [] },
         .nothing]) req).request =
      { req with
          queued_properties := [q3],
          estimated_properties := [(q1.substance_id, [cp1])],
          unsuccessful_properties := [(q2.substance_id, [cp2])],
          exceptions := [e2] } := by
  have b11 : (q1.prop_id == q1.prop_id) = true := by simp
  have b21 : (q2.prop_id == q1.prop_id) = false := by simp [h21]
  have b31 : (q3.prop_id == q1.prop_id) = false := by simp [h31]
  have b22 : (q2.prop_id == q2.prop_id) = true := by simp
  have b32 : (q3.prop_id == q2.prop_id) = false := by simp [h32]
  have step1 : processOne fs req
      (.result { property_id := q1.prop_id, calculated_property := some cp1,
                 exception := none, data_directories_to_store := some [] }) =
      ({ req with
          queued_properties := [q2, q3],
          estimated_properties := mapAppend req.estimated_properties q1.substance_id cp1 },
        none) := by
    simp only [processOne, storageError, storeDataDirectories]
    rw [hq]
    simp only [List.filter_cons, b11, b21, b31, List.filter_nil]
    simp [List.erase_cons_head, hs1]
  have step2 : processOne fs
      { req with
          queued_properties := [q2, q3],
          estimated_properties := mapAppend req.estimated_properties q1.substance_id cp1 }
      (.result { property_id := q2.prop_id, calculated_property := some cp2,
                 exception := some e2, data_directories_to_store := some [] }) =
      ({ req with
          queued_properties := [q3],
          estimated_properties := mapAppend req.estimated_properties q1.substance_id cp1,
          unsuccessful_properties := mapAppend req.unsuccessful_properties q2.substance_id cp2,
          exceptions := req.exceptions ++ [e2] },
        none) := by
    simp only [processOne, storageError]
    simp only [List.filter_cons, b22, b32, List.filter_nil]
    simp [List.erase_cons_head, hs2]
  simp only [process_results, runBody, processLoop, step1, step2]
  simp only [processOne]
  rw [hest, huns, hexc]
  simp [mapAppend]

/-- C3 witness: the scenario instantiated with distinct property ids. -/
theorem c3_mixed_batch_witness :
    (process_results [] (.ok
        [.result { property_id := "p1", calculated_property := some ⟨"s1"⟩,
                   exception := none, data_directories_to_store := some [] },
         .result { property_id := "p2", calculated_property := some ⟨"s2"⟩,
                   exception := some ⟨"boom"⟩, data_directories_to_store := some [] },
         .nothing])
      { id := "req-3", force_field_id := "ff-1",
        queued_properties := [⟨"p1", "s1"⟩, ⟨"p2", "s2"⟩, ⟨"p3", "s3"⟩],
        estimated_properties := [], unsuccessful_properties := [],
        exceptions := [] }).request =
      { id := "req-3", force_field_id := "ff-1",
        queued_properties := [⟨"p3", "s3"⟩],
        estimated_properties := [("s1", [⟨"s1"⟩])],
        unsuccessful_properties := [("s2", [⟨"s2"⟩])],
        exceptions := [⟨"boom"⟩] } :=
  c3_mixed_batch [] _ ⟨"p1", "s1"⟩ ⟨"p2", "s2"⟩ ⟨"p3", "s3"⟩ ⟨"s1"⟩ ⟨"s2"⟩ ⟨"boom"⟩
    rfl rfl rfl rfl (by decide) (by decide) (by decide) rfl rfl

/-! ## Sample protocol types used by witnesses and counterexamples -/

/-- A protocol class with one output next to the inherited
allow_merging input. -/
def tWithOutput : ProtocolType :=
  { name := "BuildCoordinates", mro := ["BuildCoordinates", "BaseProtocol"],
    inputs := [("allow_merging", some .ExactlyEqual)],
    outputs := ["coordinate_file_path"] }

/-- A simulation-like protocol class exercising every merge policy. -/
def tSimulation : ProtocolType :=
  { name := "RunSimulation", mro := ["RunSimulation", "BaseProtocol"],
    inputs := [("allow_merging", some .ExactlyEqual),
               ("steps", some .GreatestValue),
               ("output_frequency", some .SmallestValue),
               ("ensemble", some .ExactlyEqual),
               ("conditions", none)],
    outputs := ["output_coordinate_file"] }

/-- A base protocol class. -/
def tMergeBase : ProtocolType :=
  { name := "AverageProperty", mro := ["AverageProperty", "BaseProtocol"],
    inputs := [("allow_merging", some .ExactlyEqual)], outputs := [] }

/-- A class derived from tMergeBase that declares nothing new. -/
def tMergeDerived : ProtocolType :=
  { name := "AverageTrajectory", mro := ["AverageTrajectory", "AverageProperty", "BaseProtocol"],
    inputs := [("allow_merging", some .ExactlyEqual)], outputs := [] }

/-- A class unrelated by inheritance to tMergeBase. -/
def tUnrelated : ProtocolType :=
  { name := "BuildTopology", mro := ["BuildTopology", "BaseProtocol"],
    inputs := [("allow_merging", some .ExactlyEqual)], outputs := [] }

/-! ## Claims about the protocol contract (protocols.py) -/

/-- C9: set_uuid is idempotent — when the protocol's id already carries
the tag, set_uuid leaves the protocol (id, input paths, input values and
output paths) wholly unchanged, and applying set_uuid twice with one tag
always equals applying it once, since the first application stamps the
tag into the id before anything else. -/
theorem c9_set_uuid_idempotent (p : Protocol) (tag : String) :
    (tag ∈ p.id → set_uuid p tag = (p, none)) ∧
    set_uuid (set_uuid p tag).1 tag = ((set_uuid p tag).1, none) := by
  constructor
  · intro h
    simp [set_uuid, h]
  · by_cases h : tag ∈ p.id
    · simp [set_uuid, h]
    · have hid : (set_uuid p tag).1.id = append_uuid p.id tag := by
        simp only [set_uuid, if_neg h]
        rcases hsi : setUuidInputs tag (append_uuid p.id tag) p.required_inputs p.values
          with ⟨paths, vals, err⟩
        cases err <;> simp
      have hmem : tag ∈ (set_uuid p tag).1.id := by
        rw [hid]
        exact List.mem_cons_self _ _
      generalize hQ : (set_uuid p tag).1 = q at hmem ⊢
      simp [set_uuid, hmem]

/-- C9 witness: a protocol whose id already carries the tag is returned
untouched. -/
theorem c9_set_uuid_idempotent_witness :
    set_uuid (mkProtocol tSimulation ["job-7", "node-1"]) "job-7" =
      (mkProtocol tSimulation ["job-7", "node-1"], none) :=
  (c9_set_uuid_idempotent (mkProtocol tSimulation ["job-7", "node-1"]) "job-7").1 (by decide)

/-- C7 counterexample: the auxiliary instance attribute directory is not
among the declared inputs or outputs, yet get_value returns it and
set_value overwrites it without error — the actual guard is attribute
existence, not declared-input-output membership. -/
theorem c7_counterexample :
    get_value (mkProtocol tWithOutput ["node-a"]) ⟨[], "directory"⟩ = .ok .vnone ∧
    isError (set_value (mkProtocol tWithOutput ["node-a"]) ⟨[], "directory"⟩
      (.vstr "scratch")) = false ∧
    "directory" ∉ (mkProtocol tWithOutput ["node-a"]).ptype.inputs.map Prod.fst ∧
    "directory" ∉ (mkProtocol tWithOutput ["node-a"]).ptype.outputs := by
  exact ⟨rfl, rfl, by decide, by decide⟩

/-- C7 (amended): get_value and set_value fail whenever the address
targets a different node id, and whenever the address names no attribute
of the protocol; every address in provided_outputs is read-only for
set_value; and no valid (well-formed) input address makes either
operation fail. Declared inputs and outputs are always attributes, but
so are auxiliary attributes such as directory, which therefore do not
fail the lookup even though they are outside the declared sets. -/
theorem c7_value_access (p : Protocol) (addr : ProtocolPath) (v : Value) :
    (targetsOther p addr = true →
      isError (get_value p addr) = true ∧ isError (set_value p addr v) = true) ∧
    (p.values.lookup addr.property_name = none →
      isError (get_value p addr) = true ∧ isError (set_value p addr v) = true) ∧
    (addr ∈ p.provided_outputs → isError (set_value p addr v) = true) ∧
    (WF p → addr ∈ p.required_inputs →
      isError (get_value p addr) = false ∧ isError (set_value p addr v) = false) := by
  refine ⟨?_, ?_, ?_, ?_⟩
  · intro h
    constructor <;> simp [get_value, set_value, h, isError]
  · intro h
    by_cases ht : targetsOther p addr
    · constructor <;> simp [get_value, set_value, ht, isError]
    · constructor <;> simp [get_value, set_value, ht, h, isError]
  · intro h
    by_cases ht : targetsOther p addr
    · simp [set_value, ht, isError]
    · by_cases hl : (p.values.lookup addr.property_name).isNone
      · simp [set_value, ht, hl, isError]
      · simp [set_value, ht, hl, h, isError]
  · intro hWF hmem
    obtain ⟨hloc, _, hval, _, hout⟩ := hWF
    have hlocal : addr.protocol_ids = [] := hloc addr hmem
    have ht : targetsOther p addr = false := by
      simp [targetsOther, ProtocolPath.start_protocol, hlocal]
    have hv := hval addr hmem
    have ho := hout addr hmem
    rcases hlk : p.values.lookup addr.property_name with _ | w
    · rw [hlk] at hv
      simp at hv
    · constructor
      · simp [get_value, ht, hlk, isError]
      · simp [set_value, ht, hlk, ho, isError]

/-- C7 amended witness: each guard exercised at a concrete address of a
fresh simulation protocol. -/
theorem c7_value_access_witness :
    (isError (get_value (mkProtocol tSimulation ["w"]) ⟨[["q"]], "allow_merging"⟩) = true ∧
      isError (set_value (mkProtocol tSimulation ["w"]) ⟨[["q"]], "allow_merging"⟩
        (.vint 5)) = true) ∧
    (isError (get_value (mkProtocol tSimulation ["w"]) ⟨[], "no_such_attr"⟩) = true ∧
      isError (set_value (mkProtocol tSimulation ["w"]) ⟨[], "no_such_attr"⟩
        (.vint 5)) = true) ∧
    isError (set_value (mkProtocol tSimulation ["w"]) ⟨[], "output_coordinate_file"⟩
      (.vint 5)) = true ∧
    (isError (get_value (mkProtocol tSimulation ["w"]) ⟨[], "steps"⟩) = false ∧
      isError (set_value (mkProtocol tSimulation ["w"]) ⟨[], "steps"⟩ (.vint 5)) = false) :=
  ⟨(c7_value_access (mkProtocol tSimulation ["w"]) ⟨[["q"]], "allow_merging"⟩ (.vint 5)).1 rfl,
    (c7_value_access (mkProtocol tSimulation ["w"]) ⟨[], "no_such_attr"⟩ (.vint 5)).2.1 rfl,
    (c7_value_access (mkProtocol tSimulation ["w"]) ⟨[], "output_coordinate_file"⟩
      (.vint 5)).2.2.1 (by decide),
    (c7_value_access (mkProtocol tSimulation ["w"]) ⟨[], "steps"⟩ (.vint 5)).2.2.2
      (by decide) (by decide)⟩

/-- C4 counterexample: a protocol whose declared type derives from the
other protocol's declared type passes the isinstance type check of
can_merge, so two nodes of different declared types (subclass paired
with base) can still merge — refuting the identical-declared-type
requirement. -/
theorem c4_counterexample :
    can_merge (mkProtocol tMergeDerived ["d"]) (mkProtocol tMergeBase ["b"]) = .ok true ∧
    (mkProtocol tMergeDerived ["d"]).ptype.name ≠ (mkProtocol tMergeBase ["b"]).ptype.name := by
  exact ⟨rfl, by decide⟩

/-- The match test the can_merge loop applies to one input path of a
protocol pair: only class-declared inputs tagged ExactlyEqual constrain
the pair, by presence on the other protocol and value equality. -/
def exactlyEqualTest (a b : Protocol) (q : ProtocolPath) : Bool :=
  match a.ptype.inputs.lookup q.property_name with
  | some (some .ExactlyEqual) =>
    decide (q ∈ b.required_inputs) &&
      (a.values.lookup q.property_name == b.values.lookup q.property_name)
  | _ => true

/-- Characterization of the can_merge input loop on locally-scoped,
class-declared, attribute-backed input paths: it returns, without ever
raising, the conjunction of the ExactlyEqual tests. -/
theorem canMergeLoop_eq_all (a b : Protocol) :
    ∀ L : List ProtocolPath,
      (∀ q ∈ L, q.protocol_ids = []) →
      (∀ q ∈ L, (a.ptype.inputs.lookup q.property_name).isSome) →
      (∀ q ∈ L, (a.values.lookup q.property_name).isSome) →
      (∀ q ∈ L, q ∈ b.required_inputs → (b.values.lookup q.property_name).isSome) →
      canMergeLoop a b L = .ok (L.all (exactlyEqualTest a b)) := by
  intro L
  induction L with
  | nil => intro _ _ _ _; rfl
  | cons q rest ih =>
    intro hloc htype hvals hbvals
    have hq : q.protocol_ids = [] := hloc q (List.mem_cons_self _ _)
    have hstart : q.start_protocol = none := by
      simp [ProtocolPath.start_protocol, hq]
    have hrest := ih (fun x hx => hloc x (List.mem_cons_of_mem _ hx))
      (fun x hx => htype x (List.mem_cons_of_mem _ hx))
      (fun x hx => hvals x (List.mem_cons_of_mem _ hx))
      (fun x hx hb => hbvals x (List.mem_cons_of_mem _ hx) hb)
    have hc1 : ¬ (q.start_protocol ≠ none ∧ q.start_protocol ≠ some a.id) := by
      simp [hstart]
    have hc2 : isLocalOrSelf a.id q = true := by
      simp [isLocalOrSelf, hstart]
    have hred : canMergeLoop a b (q :: rest) =
        (match classMergeBehavior a.ptype q.property_name with
          | .error e => .error e
          | .ok none => canMergeLoop a b rest
          | .ok (some m) =>
            if m ≠ .ExactlyEqual then canMergeLoop a b rest
            else if q ∉ b.required_inputs then .ok false
            else
              match get_value a q, get_value b q with
              | .error e, _ => .error e
              | _, .error e => .error e
              | .ok sv, .ok ov =>
                if sv ≠ ov then .ok false else canMergeLoop a b rest) := by
      simp only [canMergeLoop, if_neg hc1, if_neg (not_not_intro hc2)]
    rcases hlk : a.ptype.inputs.lookup q.property_name with _ | mb
    · exact absurd (htype q (List.mem_cons_self _ _)) (by simp [hlk])
    · have hcls : classMergeBehavior a.ptype q.property_name = .ok mb := by
        simp [classMergeBehavior, hlk]
      rw [hred, hcls]
      rcases mb with _ | m
      · -- attribute without a merge_behavior: skipped
        rw [hrest]
        simp [List.all_cons, exactlyEqualTest, hlk]
      · cases m with
        | ExactlyEqual =>
          rcases hav : a.values.lookup q.property_name with _ | sv
          · exact absurd (hvals q (List.mem_cons_self _ _)) (by simp [hav])
          · by_cases hmemb : q ∈ b.required_inputs
            · rcases hbv : b.values.lookup q.property_name with _ | ov
              · exact absurd (hbvals q (List.mem_cons_self _ _) hmemb) (by simp [hbv])
              · have hga : get_value a q = .ok sv := by
                  simp [get_value, targetsOther, hstart, hav]
                have hgb : get_value b q = .ok ov := by
                  simp [get_value, targetsOther, hstart, hbv]
                by_cases hvv : sv = ov
                · simp [hga, hgb, hmemb, hvv, hrest, List.all_cons, exactlyEqualTest,
                    hlk, hav, hbv]
                · simp [hga, hgb, hmemb, hvv, List.all_cons, exactlyEqualTest,
                    hlk, hav, hbv]
            · simp [hmemb, List.all_cons, exactlyEqualTest, hlk]
        | SmallestValue =>
          simp [hrest, List.all_cons, exactlyEqualTest, hlk]
        | GreatestValue =>
          simp [hrest, List.all_cons, exactlyEqualTest, hlk]

/-- C4 (amended): can_merge(a, b) is true only if a allows merging, b's
declared type is a's declared type or one of its ancestors (the check is
isinstance-style, so a subclass-typed node can merge with a base-typed
one), and — allow_merging being itself an ExactlyEqual input — b's
allow_merging value equals a's; for declared types unrelated by
inheritance, can_merge is false regardless of input equality. -/
theorem c4_can_merge_subclass (a b : Protocol)
    (hWa : WF a) (hWb : WF b)
    (hpath : (⟨[], "allow_merging"⟩ : ProtocolPath) ∈ a.required_inputs)
    (htag : a.ptype.inputs.lookup "allow_merging" = some (some .ExactlyEqual)) :
    (can_merge a b = .ok true →
      (∃ va, getAttr a "allow_merging" = .ok va ∧ va.truthy = true) ∧
      b.ptype.name ∈ a.ptype.mro ∧
      b.values.lookup "allow_merging" = a.values.lookup "allow_merging") ∧
    (b.ptype.name ∉ a.ptype.mro → can_merge a b = .ok false) := by
  have hloop := canMergeLoop_eq_all a b a.required_inputs hWa.1 hWa.2.1 hWa.2.2.1
    (fun q _ hb => hWb.2.2.1 q hb)
  constructor
  · intro h
    rcases hga : getAttr a "allow_merging" with e | va
    · simp [can_merge, hga] at h
    · by_cases htr : va.truthy
      · by_cases hmro : b.ptype.name ∈ a.ptype.mro
        · have hall : a.required_inputs.all (exactlyEqualTest a b) = true := by
            have h' := h
            simp [can_merge, hga, htr, hmro, hloop] at h'
            exact List.all_eq_true.mpr h'
          have htest := List.all_eq_true.mp hall _ hpath
          simp only [exactlyEqualTest, htag, Bool.and_eq_true, decide_eq_true_eq,
            beq_iff_eq] at htest
          exact ⟨⟨va, rfl, htr⟩, hmro, htest.2.symm⟩
        · simp [can_merge, hga, htr, hmro] at h
      · simp [can_merge, hga, htr] at h
  · intro hmro
    have hsome := hWa.2.2.1 _ hpath
    rcases hlkp : a.values.lookup "allow_merging" with _ | va
    · rw [hlkp] at hsome
      simp at hsome
    · have hga : getAttr a "allow_merging" = .ok va := by
        simp [getAttr, hlkp]
      by_cases htr : va.truthy
      · simp [can_merge, hga, htr, hmro]
      · simp [can_merge, hga, htr]

/-- C4 amended witness: two fresh nodes of one declared type satisfy the
necessary conditions, and a node of an unrelated declared type is
rejected. -/
theorem c4_can_merge_subclass_witness :
    ((∃ va, getAttr (mkProtocol tMergeBase ["x"]) "allow_merging" = .ok va ∧
        va.truthy = true) ∧
      (mkProtocol tMergeBase ["y"]).ptype.name ∈ (mkProtocol tMergeBase ["x"]).ptype.mro ∧
      (mkProtocol tMergeBase ["y"]).values.lookup "allow_merging" =
        (mkProtocol tMergeBase ["x"]).values.lookup "allow_merging") ∧
    can_merge (mkProtocol tMergeBase ["x"]) (mkProtocol tUnrelated ["z"]) = .ok false :=
  ⟨(c4_can_merge_subclass (mkProtocol tMergeBase ["x"]) (mkProtocol tMergeBase ["y"])
      (by decide) (by decide) (by decide) (by decide)).1 rfl,
    (c4_can_merge_subclass (mkProtocol tMergeBase ["x"]) (mkProtocol tUnrelated ["z"])
      (by decide) (by decide) (by decide) (by decide)).2 (by decide)⟩

/-- C5: for protocols of one declared type that both allow merging, if
every locally-scoped ExactlyEqual-tagged input agrees on both nodes then
can_merge is true, and if some ExactlyEqual-tagged input differs then
can_merge is false (so merge is never invoked for the pair). -/
theorem c5_can_merge_exactly_equal (a b : Protocol)
    (hWa : WF a) (hWb : WF b)
    (ht : a.ptype = b.ptype)
    (hmro : a.ptype.name ∈ a.ptype.mro)
    (hama : getAttr a "allow_merging" = .ok (.vbool true))
    (_hamb : getAttr b "allow_merging" = .ok (.vbool true)) :
    ((∀ q ∈ a.required_inputs,
        a.ptype.inputs.lookup q.property_name = some (some .ExactlyEqual) →
        q ∈ b.required_inputs ∧
        a.values.lookup q.property_name = b.values.lookup q.property_name) →
      can_merge a b = .ok true) ∧
    (∀ q ∈ a.required_inputs,
      a.ptype.inputs.lookup q.property_name = some (some .ExactlyEqual) →
      a.values.lookup q.property_name ≠ b.values.lookup q.property_name →
      can_merge a b = .ok false) := by
  have hbname : b.ptype.name ∈ a.ptype.mro := by
    rw [← ht]
    exact hmro
  have hloop := canMergeLoop_eq_all a b a.required_inputs hWa.1 hWa.2.1 hWa.2.2.1
    (fun q _ hb => hWb.2.2.1 q hb)
  constructor
  · intro heq
    have hall : a.required_inputs.all (exactlyEqualTest a b) = true := by
      rw [List.all_eq_true]
      intro q hq
      rcases hlk : a.ptype.inputs.lookup q.property_name with _ | mb
      · simp [exactlyEqualTest, hlk]
      · rcases mb with _ | m
        · simp [exactlyEqualTest, hlk]
        · cases m with
          | ExactlyEqual =>
            obtain ⟨hm, he⟩ := heq q hq hlk
            simp [exactlyEqualTest, hlk, hm, he]
          | SmallestValue => simp [exactlyEqualTest, hlk]
          | GreatestValue => simp [exactlyEqualTest, hlk]
    simp [can_merge, hama, Value.truthy, hbname, hloop, hall]
  · intro q hq htag hne
    have hall : a.required_inputs.all (exactlyEqualTest a b) = false := by
      rw [List.all_eq_false]
      refine ⟨q, hq, ?_⟩
      simp [exactlyEqualTest, htag, hne]
    simp [can_merge, hama, Value.truthy, hbname, hloop, hall]

/-- C5 witness: two fresh simulation nodes merge; changing the
ExactlyEqual-tagged ensemble input on one of them blocks the merge. -/
theorem c5_can_merge_exactly_equal_witness :
    can_merge (mkProtocol tSimulation ["a"]) (mkProtocol tSimulation ["b"]) = .ok true ∧
    can_merge (mkProtocol tSimulation ["a"])
      { mkProtocol tSimulation ["c"] with
        values := setVal (mkProtocol tSimulation ["c"]).values "ensemble" (.vint 1) } =
      .ok false :=
  ⟨(c5_can_merge_exactly_equal (mkProtocol tSimulation ["a"]) (mkProtocol tSimulation ["b"])
      (by decide) (by decide) rfl (by decide) rfl rfl).1 (by decide),
    (c5_can_merge_exactly_equal (mkProtocol tSimulation ["a"])
      { mkProtocol tSimulation ["c"] with
        values := setVal (mkProtocol tSimulation ["c"]).values "ensemble" (.vint 1) }
      (by decide) (by decide) rfl (by decide) rfl rfl).2
      ⟨[], "ensemble"⟩ (by decide) (by decide) (by decide)⟩

/-- Updating one attribute leaves every other attribute's lookup
unchanged. -/
theorem lookup_setVal_ne (n n' : String) (v : Value) (h : n' ≠ n) :
    ∀ vals : List (String × Value), (setVal vals n v).lookup n' = vals.lookup n' := by
  intro vals
  induction vals with
  | nil => rfl
  | cons e rest ih =>
    rcases e with ⟨k, w⟩
    simp only [setVal, List.map_cons]
    by_cases hk : k = n
    · rw [if_pos hk]
      have h1 : (n' == n) = false := by simp [h]
      have h2 : (n' == k) = false := by simp [hk ▸ h]
      simp only [List.lookup, h1, h2]
      exact ih
    · rw [if_neg hk]
      by_cases he : n' = k
      · simp [List.lookup, he]
      · have h2 : (n' == k) = false := by simp [he]
        simp only [List.lookup, h2]
        exact ih

/-- Updating an existing attribute makes its lookup return the new
value. -/
theorem lookup_setVal_self (n : String) (v : Value) :
    ∀ vals : List (String × Value), (vals.lookup n).isSome →
      (setVal vals n v).lookup n = some v := by
  intro vals
  induction vals with
  | nil => intro h; simp [List.lookup] at h
  | cons e rest ih =>
    rcases e with ⟨k, w⟩
    intro h
    simp only [setVal, List.map_cons]
    by_cases hk : k = n
    · rw [if_pos hk]
      simp [List.lookup]
    · rw [if_neg hk]
      have h2 : (n == k) = false := by
        simp only [beq_eq_false_iff_ne, ne_eq]
        exact fun hnk => hk hnk.symm
      simp only [List.lookup, h2]
      rw [List.lookup] at h
      rw [h2] at h
      exact ih h

/-- Specification of the merge input loop on locally-scoped,
class-declared, attribute-backed, output-disjoint input paths holding
integer values wherever a Smallest or Greatest policy applies: the loop
succeeds, touches nothing but the Smallest and Greatest tagged inputs,
and rewrites those to the min respectively max of the two protocols'
values. -/
theorem mergeLoop_spec (b : Protocol) :
    ∀ (L : List ProtocolPath) (a : Protocol),
      (∀ q ∈ L, q.protocol_ids = []) →
      (∀ q ∈ L, (a.ptype.inputs.lookup q.property_name).isSome) →
      (∀ q ∈ L, (a.values.lookup q.property_name).isSome) →
      (∀ q ∈ L, q ∉ a.provided_outputs) →
      (L.map (fun q => q.property_name)).Nodup →
      (∀ q ∈ L, ∀ m, a.ptype.inputs.lookup q.property_name = some (some m) →
        m ≠ .ExactlyEqual →
        (∃ i, a.values.lookup q.property_name = some (.vint i)) ∧
        (∃ j, get_value b q = .ok (.vint j))) →
      ∃ a', mergeLoop b a L = .ok a' ∧
        a'.ptype = a.ptype ∧ a'.id = a.id ∧
        a'.required_inputs = a.required_inputs ∧
        a'.provided_outputs = a.provided_outputs ∧
        (∀ n, (∀ q ∈ L, q.property_name = n →
            ∀ m, a.ptype.inputs.lookup n = some (some m) → m = .ExactlyEqual) →
          a'.values.lookup n = a.values.lookup n) ∧
        (∀ q ∈ L, ∀ m, a.ptype.inputs.lookup q.property_name = some (some m) →
          m ≠ .ExactlyEqual → ∀ i j,
          a.values.lookup q.property_name = some (.vint i) →
          get_value b q = .ok (.vint j) →
          a'.values.lookup q.property_name =
            some (.vint (if m = .SmallestValue then min i j else max i j))) := by
  intro L
  induction L with
  | nil =>
    intro a _ _ _ _ _ _
    exact ⟨a, rfl, rfl, rfl, rfl, rfl, fun n _ => rfl,
      fun q hq => absurd hq (List.not_mem_nil q)⟩
  | cons q rest ih =>
    intro a hloc htype hvals hout hnodup hints
    have hqloc : q.protocol_ids = [] := hloc q (List.mem_cons_self _ _)
    have hstart : q.start_protocol = none := by
      simp [ProtocolPath.start_protocol, hqloc]
    have hlocSelf : isLocalOrSelf a.id q = true := by
      simp [isLocalOrSelf, hstart]
    have hnodup' := hnodup
    rw [List.map_cons, List.nodup_cons] at hnodup'
    obtain ⟨hqnotin, hnodupRest⟩ := hnodup'
    have hner : ∀ q' ∈ rest, q'.property_name ≠ q.property_name := by
      intro q' hq' hcontra
      exact hqnotin (hcontra ▸ List.mem_map_of_mem (fun x => x.property_name) hq')
    rcases hlk : a.ptype.inputs.lookup q.property_name with _ | mb
    · exact absurd (htype q (List.mem_cons_self _ _)) (by simp [hlk])
    have hcls : classMergeBehavior a.ptype q.property_name = .ok mb := by
      simp [classMergeBehavior, hlk]
    rcases mb with _ | m
    · -- descriptor without merge_behavior: the loop skips it
      obtain ⟨a', hml, hpt, hid, hri, hpo, hun, hmm⟩ := ih a
        (fun x hx => hloc x (List.mem_cons_of_mem _ hx))
        (fun x hx => htype x (List.mem_cons_of_mem _ hx))
        (fun x hx => hvals x (List.mem_cons_of_mem _ hx))
        (fun x hx => hout x (List.mem_cons_of_mem _ hx))
        hnodupRest
        (fun x hx => hints x (List.mem_cons_of_mem _ hx))
      refine ⟨a', ?_, hpt, hid, hri, hpo, ?_, ?_⟩
      · simp only [mergeLoop, if_neg (not_not_intro hlocSelf), hcls]
        exact hml
      · intro n hn
        exact hun n (fun x hx => hn x (List.mem_cons_of_mem _ hx))
      · intro x hx m hm hne i j hai hbj
        rcases List.mem_cons.mp hx with rfl | hx'
        · rw [hlk] at hm
          simp at hm
        · exact hmm x hx' m hm hne i j hai hbj
    · cases m with
      | ExactlyEqual =>
        obtain ⟨a', hml, hpt, hid, hri, hpo, hun, hmm⟩ := ih a
          (fun x hx => hloc x (List.mem_cons_of_mem _ hx))
          (fun x hx => htype x (List.mem_cons_of_mem _ hx))
          (fun x hx => hvals x (List.mem_cons_of_mem _ hx))
          (fun x hx => hout x (List.mem_cons_of_mem _ hx))
          hnodupRest
          (fun x hx => hints x (List.mem_cons_of_mem _ hx))
        refine ⟨a', ?_, hpt, hid, hri, hpo, ?_, ?_⟩
        · simp only [mergeLoop, if_neg (not_not_intro hlocSelf), hcls]
          exact hml
        · intro n hn
          exact hun n (fun x hx => hn x (List.mem_cons_of_mem _ hx))
        · intro x hx m hm hne i j hai hbj
          rcases List.mem_cons.mp hx with rfl | hx'
          · rw [hlk] at hm
            have : m = .ExactlyEqual := by
              injection hm with hm'
              injection hm' with hm''
              exact hm''.symm
            exact absurd this hne
          · exact hmm x hx' m hm hne i j hai hbj
      | SmallestValue =>
        obtain ⟨⟨i0, hai0⟩, ⟨j0, hbj0⟩⟩ :=
          hints q (List.mem_cons_self _ _) .SmallestValue hlk (by simp)
        have hga : get_value a q = .ok (.vint i0) := by
          simp [get_value, targetsOther, hstart, hai0]
        have hisS : (a.values.lookup q.property_name).isSome := by simp [hai0]
        have hsv : set_value a q (.vint (min i0 j0)) =
            .ok { a with values := setVal a.values q.property_name (.vint (min i0 j0)) } := by
          simp [set_value, targetsOther, hstart, Option.isNone_iff_eq_none, hai0,
            hout q (List.mem_cons_self _ _)]
        set a1 : Protocol :=
          { a with values := setVal a.values q.property_name (.vint (min i0 j0)) } with ha1
        obtain ⟨a', hml, hpt, hid, hri, hpo, hun, hmm⟩ := ih a1
          (fun x hx => hloc x (List.mem_cons_of_mem _ hx))
          (fun x hx => htype x (List.mem_cons_of_mem _ hx))
          (fun x hx => by
            rw [ha1]
            simp only []
            rw [lookup_setVal_ne _ _ _ (hner x hx)]
            exact hvals x (List.mem_cons_of_mem _ hx))
          (fun x hx => hout x (List.mem_cons_of_mem _ hx))
          hnodupRest
          (fun x hx m hm hne => by
            obtain ⟨⟨i, hi⟩, hj⟩ := hints x (List.mem_cons_of_mem _ hx) m hm hne
            refine ⟨⟨i, ?_⟩, hj⟩
            rw [ha1]
            simp only []
            rw [lookup_setVal_ne _ _ _ (hner x hx)]
            exact hi)
        have hstep : mergeLoop b a (q :: rest) = mergeLoop b a1 rest := by
          simp only [mergeLoop, if_neg (not_not_intro hlocSelf), hcls, hga, hbj0, vmin]
          simp [hsv]
        refine ⟨a', by rw [hstep]; exact hml, hpt, hid, hri, hpo, ?_, ?_⟩
        · intro n hn
          have hnq : q.property_name ≠ n := by
            intro hcontra
            have := hn q (List.mem_cons_self _ _) hcontra .SmallestValue (hcontra ▸ hlk)
            simp at this
          rw [hun n (fun x hx hxn => hn x (List.mem_cons_of_mem _ hx) hxn), ha1]
          simp only []
          exact lookup_setVal_ne _ _ _ (fun h => hnq h.symm) _
        · intro x hx m hm hne i j hai hbj
          rcases List.mem_cons.mp hx with rfl | hx'
          · have hmeq : m = .SmallestValue := by
              rw [hlk] at hm
              injection hm with hm'
              injection hm' with hm''
              exact hm''.symm
            have hieq : i = i0 := by
              rw [hai0] at hai
              injection hai with hai'
              injection hai' with hai''
              exact hai''.symm
            have hjeq : j = j0 := by
              rw [hbj0] at hbj
              injection hbj with hbj'
              injection hbj' with hbj''
              exact hbj''.symm
            subst hmeq hieq hjeq
            have huq : a'.values.lookup x.property_name = a1.values.lookup x.property_name :=
              hun x.property_name (fun y hy hyn => absurd hyn (hner y hy))
            rw [huq, ha1]
            simp only []
            rw [lookup_setVal_self _ _ _ hisS]
            simp
          · have hxy := hmm x hx' m hm hne i j (by
                rw [ha1]
                simp only []
                rw [lookup_setVal_ne _ _ _ (hner x hx')]
                exact hai) hbj
            exact hxy
      | GreatestValue =>
        obtain ⟨⟨i0, hai0⟩, ⟨j0, hbj0⟩⟩ :=
          hints q (List.mem_cons_self _ _) .GreatestValue hlk (by simp)
        have hga : get_value a q = .ok (.vint i0) := by
          simp [get_value, targetsOther, hstart, hai0]
        have hisS : (a.values.lookup q.property_name).isSome := by simp [hai0]
        have hsv : set_value a q (.vint (max i0 j0)) =
            .ok { a with values := setVal a.values q.property_name (.vint (max i0 j0)) } := by
          simp [set_value, targetsOther, hstart, Option.isNone_iff_eq_none, hai0,
            hout q (List.mem_cons_self _ _)]
        set a1 : Protocol :=
          { a with values := setVal a.values q.property_name (.vint (max i0 j0)) } with ha1
        obtain ⟨a', hml, hpt, hid, hri, hpo, hun, hmm⟩ := ih a1
          (fun x hx => hloc x (List.mem_cons_of_mem _ hx))
          (fun x hx => htype x (List.mem_cons_of_mem _ hx))
          (fun x hx => by
            rw [ha1]
            simp only []
            rw [lookup_setVal_ne _ _ _ (hner x hx)]
            exact hvals x (List.mem_cons_of_mem _ hx))
          (fun x hx => hout x (List.mem_cons_of_mem _ hx))
          hnodupRest
          (fun x hx m hm hne => by
            obtain ⟨⟨i, hi⟩, hj⟩ := hints x (List.mem_cons_of_mem _ hx) m hm hne
            refine ⟨⟨i, ?_⟩, hj⟩
            rw [ha1]
            simp only []
            rw [lookup_setVal_ne _ _ _ (hner x hx)]
            exact hi)
        have hstep : mergeLoop b a (q :: rest) = mergeLoop b a1 rest := by
          simp only [mergeLoop, if_neg (not_not_intro hlocSelf), hcls, hga, hbj0, vmax]
          simp [hsv]
        refine ⟨a', by rw [hstep]; exact hml, hpt, hid, hri, hpo, ?_, ?_⟩
        · intro n hn
          have hnq : q.property_name ≠ n := by
            intro hcontra
            have := hn q (List.mem_cons_self _ _) hcontra .GreatestValue (hcontra ▸ hlk)
            simp at this
          rw [hun n (fun x hx hxn => hn x (List.mem_cons_of_mem _ hx) hxn), ha1]
          simp only []
          exact lookup_setVal_ne _ _ _ (fun h => hnq h.symm) _
        · intro x hx m hm hne i j hai hbj
          rcases List.mem_cons.mp hx with rfl | hx'
          · have hmeq : m = .GreatestValue := by
              rw [hlk] at hm
              injection hm with hm'
              injection hm' with hm''
              exact hm''.symm
            have hieq : i = i0 := by
              rw [hai0] at hai
              injection hai with hai'
              injection hai' with hai''
              exact hai''.symm
            have hjeq : j = j0 := by
              rw [hbj0] at hbj
              injection hbj with hbj'
              injection hbj' with hbj''
              exact hbj''.symm
            subst hmeq hieq hjeq
            have huq : a'.values.lookup x.property_name = a1.values.lookup x.property_name :=
              hun x.property_name (fun y hy hyn => absurd hyn (hner y hy))
            rw [huq, ha1]
            simp only []
            rw [lookup_setVal_self _ _ _ hisS]
            simp
          · have hxy := hmm x hx' m hm hne i j (by
                rw [ha1]
                simp only []
                rw [lookup_setVal_ne _ _ _ (hner x hx')]
                exact hai) hbj
            exact hxy

/-- C6: for mergeable protocols (inputs local, declared,
attribute-backed, with integer values wherever min or max applies),
merge(other) succeeds, sets every GreatestValue-tagged input to the max
of the two values, every SmallestValue-tagged input to the min, leaves
ExactlyEqual-tagged and untagged inputs (and everything else about the
protocol) untouched, and returns the empty id-substitution map. -/
theorem c6_merge (a b : Protocol) (hWa : WF a)
    (hints : ∀ q ∈ a.required_inputs, ∀ m,
      a.ptype.inputs.lookup q.property_name = some (some m) → m ≠ .ExactlyEqual →
      (∃ i, a.values.lookup q.property_name = some (.vint i)) ∧
      (∃ j, get_value b q = .ok (.vint j))) :
    ∃ a', merge a b = .ok (a', []) ∧
      a'.id = a.id ∧ a'.ptype = a.ptype ∧
      a'.required_inputs = a.required_inputs ∧ a'.provided_outputs = a.provided_outputs ∧
      (∀ q ∈ a.required_inputs, ∀ i j,
        a.ptype.inputs.lookup q.property_name = some (some .GreatestValue) →
        a.values.lookup q.property_name = some (.vint i) →
        get_value b q = .ok (.vint j) →
        a'.values.lookup q.property_name = some (.vint (max i j))) ∧
      (∀ q ∈ a.required_inputs, ∀ i j,
        a.ptype.inputs.lookup q.property_name = some (some .SmallestValue) →
        a.values.lookup q.property_name = some (.vint i) →
        get_value b q = .ok (.vint j) →
        a'.values.lookup q.property_name = some (.vint (min i j))) ∧
      (∀ n, (∀ q ∈ a.required_inputs, q.property_name = n →
          ∀ m, a.ptype.inputs.lookup n = some (some m) → m = .ExactlyEqual) →
        a'.values.lookup n = a.values.lookup n) := by
  obtain ⟨a', hml, hpt, hid, hri, hpo, hun, hmm⟩ := mergeLoop_spec b a.required_inputs a
    hWa.1 hWa.2.1 hWa.2.2.1 hWa.2.2.2.2 hWa.2.2.2.1 hints
  refine ⟨a', ?_, hid, hpt, hri, hpo, ?_, ?_, hun⟩
  · simp [merge, hml]
  · intro q hq i j hg hai hbj
    have h := hmm q hq .GreatestValue hg (by simp) i j hai hbj
    simpa using h
  · intro q hq i j hg hai hbj
    have h := hmm q hq .SmallestValue hg (by simp) i j hai hbj
    simpa using h

/-- A simulation node with steps 20 and output frequency 7. -/
def pMergeA : Protocol :=
  { mkProtocol tSimulation ["a"] with
    values := setVal (setVal (mkProtocol tSimulation ["a"]).values "steps" (.vint 20))
      "output_frequency" (.vint 7) }

/-- A simulation node with steps 50 and output frequency 3. -/
def pMergeB : Protocol :=
  { mkProtocol tSimulation ["b"] with
    values := setVal (setVal (mkProtocol tSimulation ["b"]).values "steps" (.vint 50))
      "output_frequency" (.vint 3) }

/-- C6 witness: merging steps 20 with 50 under GreatestValue keeps 50 on
the survivor, output frequency 7 with 3 under SmallestValue keeps 3, and
the ExactlyEqual-tagged ensemble input is untouched. -/
theorem c6_merge_witness :
    ∃ a', merge pMergeA pMergeB = .ok (a', ([] : List (NodeId × NodeId))) ∧
      a'.values.lookup "steps" = some (.vint 50) ∧
      a'.values.lookup "output_frequency" = some (.vint 3) ∧
      a'.values.lookup "ensemble" = pMergeA.values.lookup "ensemble" := by
  have hints : ∀ q ∈ pMergeA.required_inputs, ∀ m,
      pMergeA.ptype.inputs.lookup q.property_name = some (some m) → m ≠ .ExactlyEqual →
      (∃ i, pMergeA.values.lookup q.property_name = some (.vint i)) ∧
      (∃ j, get_value pMergeB q = .ok (.vint j)) := by
    intro q hq m hm hne
    have hq' : q = ⟨[], "allow_merging"⟩ ∨ q = ⟨[], "steps"⟩ ∨
        q = ⟨[], "output_frequency"⟩ ∨ q = ⟨[], "ensemble"⟩ ∨ q = ⟨[], "conditions"⟩ := by
      simpa [pMergeA, mkProtocol, tSimulation] using hq
    rcases hq' with rfl | rfl | rfl | rfl | rfl
    · have hm' : (some (some MergeBehaviour.ExactlyEqual) : Option (Option MergeBehaviour))
          = some (some m) := hm
      injection hm' with h1
      injection h1 with h2
      exact absurd h2.symm hne
    · exact ⟨⟨20, rfl⟩, ⟨50, rfl⟩⟩
    · exact ⟨⟨7, rfl⟩, ⟨3, rfl⟩⟩
    · have hm' : (some (some MergeBehaviour.ExactlyEqual) : Option (Option MergeBehaviour))
          = some (some m) := hm
      injection hm' with h1
      injection h1 with h2
      exact absurd h2.symm hne
    · have hm' : (some (none : Option MergeBehaviour) : Option (Option MergeBehaviour))
          = some (some m) := hm
      injection hm' with h1
      injection h1
  obtain ⟨a', hml, _, _, _, _, hg, hs, hu⟩ := c6_merge pMergeA pMergeB (by decide) hints
  refine ⟨a', hml, ?_, ?_, ?_⟩
  · have h := hg ⟨[], "steps"⟩ (by decide) 20 50 rfl rfl rfl
    simpa using h
  · have h := hs ⟨[], "output_frequency"⟩ (by decide) 7 3 rfl rfl rfl
    simpa using h
  · exact hu "ensemble" (fun y _ _ m hm => by
      have hm' : (some (some MergeBehaviour.ExactlyEqual) : Option (Option MergeBehaviour))
          = some (some m) := hm
      injection hm' with h1
      injection h1 with h2
      exact h2.symm)

end PropEst
